import Mathlib

/-!
Shallow embedding of the vush shell execution engine
(src/shell.c and src/unnamed/part_000; the two files agree on every
function they share — part_000 additionally implements execute_redirect).

Each C function is modelled as a Lean function producing the list of
observable OS actions ("events") the corresponding process performs, with
the outcomes of fallible system calls (pipe, fork, open, dup2, chdir,
execvp, waitpid) supplied by explicit boolean oracles.  Forked children
are separate processes: the parent-side model records a fork event and the
child's behaviour is modelled by its own trace function.  File descriptors
are identified by their role (read/write end of pipe i, the fd returned by
open in a redirect child, the standard streams, an explicit numeric slot),
which is exactly the level at which the specification speaks about them.
-/

namespace Vush

/-- Signals the shell manipulates: SIGINT, SIGQUIT, SIGTSTP. -/
inductive Sig
  | sigint
  | sigquit
  | sigtstp
deriving DecidableEq, Repr

/-- Redirection mode (`node->redirect.mode`): REDIRECT_INPUT, REDIRECT_OUTPUT,
REDIRECT_APPEND, REDIRECT_DUP, or an unknown integer tag (the C `default` case). -/
inductive RedirMode
  | input
  | output
  | append
  | dupFd
  | unknown (k : Int)
deriving DecidableEq, Repr

/-- The AST node type (`node_t` from parser/ast.h as used by the engine).
A Command carries its program name and argv (argc is argv's length);
a Redirect carries the wrapped child, the target fd slot (negative means the
"default" sentinel), the mode, the target path and the `fd2` source fd. -/
inductive Node
  | command (program : String) (argv : List String)
  | sequence (first second : Node)
  | pipe (parts : List Node)
  | redirect (child : Node) (fd : Int) (mode : RedirMode) (target : String) (fd2 : Int)
  | subshell (child : Node)
  | detach (child : Node)

/-- File-descriptor roles as the engine uses them. -/
inductive Fd
  | stdin
  | stdout
  | stderr
  | num (n : Int)
  | pipeR (i : Nat)
  | pipeW (i : Nat)
  | file
deriving DecidableEq, Repr

/-- Open flags used by execute_redirect: O_RDONLY; O_WRONLY|O_CREAT|O_TRUNC;
O_WRONLY|O_CREAT|O_APPEND. -/
inductive OpenFlags
  | rdonly
  | wTrunc
  | wAppend
deriving DecidableEq, Repr

/-- Observable actions of one process of the engine. -/
inductive Ev
  /-- Call `pipe(pipes[i])` succeeded, creating fds pipeR i and pipeW i. -/
  | createPipe (i : Nat)
  /-- parent forked pipeline stage `i`. -/
  | forkStage (i : Nat)
  /-- parent forked a single child (command launcher / redirect wrapper). -/
  | forkChild
  /-- Call `signal(s, SIG_DFL)` — restore default disposition. -/
  | sigDfl (s : Sig)
  /-- Call `dup2(src, dst)` was made. -/
  | dup2 (src dst : Fd)
  /-- Call `close(f)`. -/
  | closeFd (f : Fd)
  /-- Call `open(path, flags)` was made. -/
  | openFile (path : String) (flags : OpenFlags)
  /-- Call `execvp(prog, argv)` was made (replaces the image when it succeeds). -/
  | execve (prog : String) (argv : List String)
  /-- Call `perror(label)` — diagnostic with the OS error appended. -/
  | perror (label : String)
  /-- Call `fprintf(stderr, msg)` — plain diagnostic. -/
  | diag (msg : String)
  /-- Call `exit(code)` / termination of the calling process. -/
  | exitEv (code : Int)
  /-- Call `chdir(path)` succeeded: the working directory changed. -/
  | chdirTo (path : String)
  /-- Call `waitpid` on the single forked child. -/
  | waitChild
  /-- Call `waitpid(pids[i], NULL, 0)` on pipeline stage `i`. -/
  | waitStage (i : Nat)
  /-- Call `free()` of an engine-internal heap array. -/
  | freeMem
  /-- parent-side summary of the single-command child: it ran `prog`, and
  `ok` tells whether execvp succeeded (child exits 1 otherwise). -/
  | launch (prog : String) (ok : Bool)
  /-- the child re-enters the dispatch loop (`run_command`) on `nd`. -/
  | runChild (nd : Node)

/-- Is this event one of the `signal(..., SIG_DFL)` restorations? -/
def isSigEv : Ev → Bool
  | .sigDfl _ => true
  | _ => false

/-- Is this event a `close()` call? -/
def isCloseEv : Ev → Bool
  | .closeFd _ => true
  | _ => false

/-- Is this event a `fork()` (of any kind)? -/
def isForkEv : Ev → Bool
  | .forkStage _ => true
  | .forkChild => true
  | _ => false

/-- Is this event a process-image replacement or launch of a child process? -/
def isSpawnEv : Ev → Bool
  | .forkStage _ => true
  | .forkChild => true
  | .launch _ _ => true
  | _ => false

/-- Is this a successful `chdir` (working-directory change)? -/
def isChdirEv : Ev → Bool
  | .chdirTo _ => true
  | _ => false

/-- C `isspace` in the default locale (the characters `atoi` skips). -/
def isSpaceC (c : Char) : Bool :=
  c = ' ' || (9 ≤ c.toNat && c.toNat ≤ 13)

/-- Accumulate the leading run of decimal digits, as `atoi` does. -/
def digitsVal : List Char → Int → Int
  | [], acc => acc
  | c :: cs, acc =>
      if c.isDigit then digitsVal cs (acc * 10 + (c.toNat - 48)) else acc

/-- C `atoi`: skip leading whitespace, an optional sign, then the longest
run of decimal digits; 0 when no digit is found. -/
def atoi (s : String) : Int :=
  match s.data.dropWhile isSpaceC with
  | '-' :: rest => - digitsVal rest 0
  | '+' :: rest => digitsVal rest 0
  | cs => digitsVal cs 0

/-- Result of running the engine in one process: the event trace and,
when the process terminated itself via `exit()`, the exit code. -/
structure PRes where
  events : List Ev
  exited : Option Int

/-- Function `execute_command` (part_000 lines 27–91 / shell.c lines 26–96) as seen by
the calling process.  `home` is `getenv("HOME")`; `chdirOk p` tells whether
`chdir(p)` succeeds; `forkOk` whether `fork()` succeeds; `execOk` whether the
child's `execvp` succeeds (the child itself is modelled by `command_child`). -/
def execute_command (program : String) (argv : List String)
    (home : Option String) (chdirOk : String → Bool)
    (forkOk : Bool) (execOk : Bool) : PRes :=
  let argc := argv.length
  if program = "exit" then
    let exit_code : Int := if 1 < argc then atoi (argv.getD 1 "") else 0
    ⟨[Ev.exitEv exit_code], some exit_code⟩
  else if program = "cd" then
    if argc < 2 then
      match home with
      | none => ⟨[Ev.diag "cd: HOME not set"], none⟩
      | some path =>
          if chdirOk path then ⟨[Ev.chdirTo path], none⟩
          else ⟨[Ev.perror "cd"], none⟩
    else
      let path := argv.getD 1 ""
      if chdirOk path then ⟨[Ev.chdirTo path], none⟩
      else ⟨[Ev.perror "cd"], none⟩
  else
    if forkOk then ⟨[Ev.forkChild, Ev.launch program execOk, Ev.waitChild], none⟩
    else ⟨[Ev.perror "fork"], none⟩

/-- The child process forked by `execute_command` (part_000 lines 73–85):
restores the three default signal dispositions, then execs; on exec failure,
perror and exit 1. -/
def command_child (program : String) (argv : List String) (execOk : Bool) : List Ev :=
  [Ev.sigDfl .sigint, Ev.sigDfl .sigquit, Ev.sigDfl .sigtstp] ++
  (if execOk then [Ev.execve program argv]
   else [Ev.execve program argv, Ev.perror program, Ev.exitEv 1])

/-- The fd-closing loop `for j: close(pipes[j][0]); close(pipes[j][1]);`
run (identically) by every pipeline child and by the parent: closes both
ends of pipes 0 .. m-1 in order. -/
def closeAllPipes (m : Nat) : List Ev :=
  (List.range m).flatMap (fun j => [Ev.closeFd (Fd.pipeR j), Ev.closeFd (Fd.pipeW j)])

/-- The pipe-creation loop of `execute_pipe` (part_000 lines 108–115),
creating pipes `i, i+1, ...` for `k` more iterations.  `pipeOk j` tells
whether the `pipe()` call for index `j` succeeds.  Returns the events of the
loop and whether it completed; on the first failure the function perrors,
frees the two heap arrays and the enclosing call returns. -/
def create_pipes (pipeOk : Nat → Bool) : Nat → Nat → List Ev × Bool
  | _, 0 => ([], true)
  | i, k + 1 =>
      if pipeOk i then
        let r := create_pipes pipeOk (i + 1) k
        (Ev.createPipe i :: r.1, r.2)
      else
        ([Ev.perror "pipe", Ev.freeMem, Ev.freeMem], false)

/-- The fork loop of `execute_pipe` (part_000 lines 118–165) as seen by the
parent, forking stages `i, i+1, ...` for `k` more iterations of an `n`-stage
pipeline.  On a fork failure the parent perrors, closes both ends of all
`n-1` pipes, frees the arrays and the enclosing call returns. -/
def fork_stages (forkOk : Nat → Bool) (n : Nat) : Nat → Nat → List Ev × Bool
  | _, 0 => ([], true)
  | i, k + 1 =>
      if forkOk i then
        let r := fork_stages forkOk n (i + 1) k
        (Ev.forkStage i :: r.1, r.2)
      else
        (Ev.perror "fork" :: closeAllPipes (n - 1) ++ [Ev.freeMem, Ev.freeMem], false)

/-- Function `execute_pipe` (part_000 lines 98–178) as seen by the shell (parent)
process, for a Pipe node with `n` stages: create `n-1` pipes (aborting on
failure), fork `n` stage children (aborting on failure), then close all pipe
fds, wait for all `n` children in stage order, and free the arrays. -/
def execute_pipe (n : Nat) (pipeOk forkOk : Nat → Bool) : List Ev :=
  let c := create_pipes pipeOk 0 (n - 1)
  if c.2 then
    let f := fork_stages forkOk n 0 n
    if f.2 then
      c.1 ++ f.1 ++ closeAllPipes (n - 1) ++
        (List.range n).map Ev.waitStage ++ [Ev.freeMem, Ev.freeMem]
    else
      c.1 ++ f.1
  else
    c.1

/-- What a pipeline child does with its stage node (part_000 lines 151–163):
a bare Command is exec'd directly (perror and exit 1 on exec failure); any
other node kind re-enters `run_command` and then the child exits 0. -/
def stage_run (stage : Node) (execOk : Bool) : List Ev :=
  match stage with
  | Node.command p args =>
      if execOk then [Ev.execve p args]
      else [Ev.execve p args, Ev.perror p, Ev.exitEv 1]
  | st => [Ev.runChild st, Ev.exitEv 0]

/-- The child process for stage `i` of an `n`-stage pipeline
(part_000 lines 135–164): dup the read end of pipe `i-1` onto stdin when
`i > 0`, dup the write end of pipe `i` onto stdout when `i < n-1`, close both
ends of all `n-1` pipes, then run the stage.  Note: no signal restoration
happens here in the source. -/
def pipe_stage_child (n i : Nat) (stage : Node) (execOk : Bool) : List Ev :=
  (if 0 < i then [Ev.dup2 (Fd.pipeR (i - 1)) Fd.stdin] else []) ++
  (if i < n - 1 then [Ev.dup2 (Fd.pipeW i) Fd.stdout] else []) ++
  closeAllPipes (n - 1) ++
  stage_run stage execOk

/-- The child process forked by `execute_redirect` (part_000 lines 193–279):
applies the single redirection dictated by `mode`, exiting 1 on any open or
dup2 failure, and on success re-enters the dispatch loop on `child` and then
exits 0.  `openOk` is the outcome of the `open()` call; `dupOk k` the outcome
of the k-th `dup2` call made by this child.  Note: the source's comment says
the child restores default signal handlers, but no `signal()` call is made. -/
def redirect_child (mode : RedirMode) (fd : Int) (target : String) (fd2 : Int)
    (child : Node) (openOk : Bool) (dupOk : Nat → Bool) : List Ev :=
  match mode with
  | .input =>
      if !openOk then
        [Ev.openFile target .rdonly, Ev.perror target, Ev.exitEv 1]
      else if !dupOk 0 then
        [Ev.openFile target .rdonly, Ev.dup2 Fd.file Fd.stdin, Ev.perror "dup2", Ev.exitEv 1]
      else
        [Ev.openFile target .rdonly, Ev.dup2 Fd.file Fd.stdin, Ev.closeFd Fd.file,
         Ev.runChild child, Ev.exitEv 0]
  | .output =>
      let target_fd : Fd := if fd < 0 then Fd.stdout else Fd.num fd
      if !openOk then
        [Ev.openFile target .wTrunc, Ev.perror target, Ev.exitEv 1]
      else if !dupOk 0 then
        [Ev.openFile target .wTrunc, Ev.dup2 Fd.file target_fd, Ev.perror "dup2", Ev.exitEv 1]
      else if fd < 0 then
        if !dupOk 1 then
          [Ev.openFile target .wTrunc, Ev.dup2 Fd.file target_fd, Ev.dup2 Fd.file Fd.stderr,
           Ev.perror "dup2", Ev.exitEv 1]
        else
          [Ev.openFile target .wTrunc, Ev.dup2 Fd.file target_fd, Ev.dup2 Fd.file Fd.stderr,
           Ev.closeFd Fd.file, Ev.runChild child, Ev.exitEv 0]
      else
        [Ev.openFile target .wTrunc, Ev.dup2 Fd.file target_fd, Ev.closeFd Fd.file,
         Ev.runChild child, Ev.exitEv 0]
  | .append =>
      let target_fd : Fd := if fd < 0 then Fd.stdout else Fd.num fd
      if !openOk then
        [Ev.openFile target .wAppend, Ev.perror target, Ev.exitEv 1]
      else if !dupOk 0 then
        [Ev.openFile target .wAppend, Ev.dup2 Fd.file target_fd, Ev.perror "dup2", Ev.exitEv 1]
      else if fd < 0 then
        if !dupOk 1 then
          [Ev.openFile target .wAppend, Ev.dup2 Fd.file target_fd, Ev.dup2 Fd.file Fd.stderr,
           Ev.perror "dup2", Ev.exitEv 1]
        else
          [Ev.openFile target .wAppend, Ev.dup2 Fd.file target_fd, Ev.dup2 Fd.file Fd.stderr,
           Ev.closeFd Fd.file, Ev.runChild child, Ev.exitEv 0]
      else
        [Ev.openFile target .wAppend, Ev.dup2 Fd.file target_fd, Ev.closeFd Fd.file,
         Ev.runChild child, Ev.exitEv 0]
  | .dupFd =>
      if !dupOk 0 then
        [Ev.dup2 (Fd.num fd2) (Fd.num fd), Ev.perror "dup2", Ev.exitEv 1]
      else
        [Ev.dup2 (Fd.num fd2) (Fd.num fd), Ev.runChild child, Ev.exitEv 0]
  | .unknown _ =>
      [Ev.diag "Unknown redirect type", Ev.exitEv 1]

/-- Function `execute_redirect` (part_000 lines 180–286) as seen by the shell (parent)
process: fork one wrapper child (perror and return on fork failure), then
wait for it; a waitpid failure is perror'd but the parent continues. -/
def execute_redirect (forkOk waitOk : Bool) : List Ev :=
  if forkOk then
    Ev.forkChild :: Ev.waitChild :: (if waitOk then [] else [Ev.perror "waitpid"])
  else
    [Ev.perror "fork"]

/-- The condition under which the redirect child's wiring sequence fails,
read off the failure checks of part_000 lines 198–273: the `open` fails
(Input/Output/Append), the first `dup2` fails, or — Output/Append with the
default sentinel `fd < 0` — the second `dup2` onto stderr fails; an unknown
mode always fails (diagnostic + exit 1). -/
def redirect_wiring_fails (mode : RedirMode) (fd : Int) (openOk : Bool)
    (dupOk : Nat → Bool) : Bool :=
  match mode with
  | .input => !openOk || !dupOk 0
  | .output => !openOk || !dupOk 0 || (decide (fd < 0) && !dupOk 1)
  | .append => !openOk || !dupOk 0 || (decide (fd < 0) && !dupOk 1)
  | .dupFd => !dupOk 0
  | .unknown _ => true

/-- The pipe-end fds of pipes 0 .. m-1, in creation order. -/
def allPipeFds (m : Nat) : List Fd :=
  (List.range m).flatMap (fun j => [Fd.pipeR j, Fd.pipeW j])

/-- Engine-created pipe fds still open in a process after it performs the
given events, starting from the open set `acc`: `pipe()` opens both ends,
`close()` removes the closed fd, every other event leaves the set unchanged. -/
def openPipeFds (acc : List Fd) : List Ev → List Fd
  | [] => acc
  | Ev.createPipe i :: rest => openPipeFds (acc ++ [Fd.pipeR i, Fd.pipeW i]) rest
  | Ev.closeFd f :: rest => openPipeFds (acc.filter (fun g => !decide (g = f))) rest
  | _ :: rest => openPipeFds acc rest

/-- Oracles for the system calls one process of the engine makes. -/
structure Env where
  home : Option String
  chdirOk : String → Bool
  forkOk : Bool
  execOk : String → Bool
  pipeOk : Nat → Bool
  waitOk : Bool

/-- Function `run_command` (part_000 lines 288–324) restricted to one process: the
dispatch loop over the node kind.  A `sequence` runs the first sub-tree and —
unless that terminated the calling process via the `exit` built-in — then the
second; `pipe` and `redirect` contribute their parent-side traces (their
children are separate processes); `subshell`/`detach` print a stub
diagnostic. -/
def run_command (env : Env) : Node → PRes
  | .command p argv =>
      execute_command p argv env.home env.chdirOk env.forkOk (env.execOk p)
  | .sequence a b =>
      let r1 := run_command env a
      match r1.exited with
      | some c => ⟨r1.events, some c⟩
      | none =>
          let r2 := run_command env b
          ⟨r1.events ++ r2.events, r2.exited⟩
  | .pipe parts =>
      ⟨execute_pipe parts.length env.pipeOk (fun _ => env.forkOk), none⟩
  | .redirect _ _ _ _ _ =>
      ⟨execute_redirect env.forkOk env.waitOk, none⟩
  | .subshell _ => ⟨[Ev.diag "not yet implemented"], none⟩
  | .detach _ => ⟨[Ev.diag "not yet implemented"], none⟩

/-- The NULL-node guard of `run_command`: a null node is a no-op. -/
def run_command_root (env : Env) : Option Node → PRes
  | none => ⟨[], none⟩
  | some nd => run_command env nd

/-- Claim C1 (code bug): for a 3-stage Pipe node where the first `pipe()`
call succeeds and the second fails, `execute_pipe` returns before any fork
(no fork event) but, contrary to the claim and the spec's lifecycle rule, it
closes no file descriptor at all: the read and write ends of the
already-created pipe 0 are leaked (the cleanup only frees the heap arrays). -/
theorem pipe_creation_failure_leaks_fds :
    execute_pipe 3 (fun k => k == 0) (fun _ => true) =
      [Ev.createPipe 0, Ev.perror "pipe", Ev.freeMem, Ev.freeMem] ∧
    (execute_pipe 3 (fun k => k == 0) (fun _ => true)).filter isForkEv = [] ∧
    (execute_pipe 3 (fun k => k == 0) (fun _ => true)).filter isCloseEv = [] :=
  ⟨rfl, rfl, rfl⟩

/-- Claim C2 (code bug): only the single-command launcher's child restores
the default dispositions of SIGINT, SIGQUIT and SIGTSTP; the pipeline stage
children and the redirect wrapper child perform no signal restoration at all
(their traces contain no `signal(..., SIG_DFL)` event), contrary to the claim
and to the source's own comment in `execute_redirect`. -/
theorem children_signal_restoration_missing :
    (command_child "ls" ["ls"] true).filter isSigEv =
      [Ev.sigDfl .sigint, Ev.sigDfl .sigquit, Ev.sigDfl .sigtstp] ∧
    (pipe_stage_child 2 0 (Node.command "cat" ["cat"]) true).filter isSigEv = [] ∧
    (pipe_stage_child 2 1 (Node.command "wc" ["wc", "-l"]) true).filter isSigEv = [] ∧
    (redirect_child .output (-1) "out.txt" 0 (Node.command "cat" ["cat"]) true
        (fun _ => true)).filter isSigEv = [] ∧
    (redirect_child .input (-1) "in.txt" 0 (Node.command "cat" ["cat"]) true
        (fun _ => true)).filter isSigEv = [] :=
  ⟨rfl, rfl, rfl, rfl, rfl⟩

/-- Claim C7: for a Command node whose program is "exit", the calling process
terminates (no fork) with the atoi of argument 1 when present and 0
otherwise; in particular `exit 7` exits 7, `exit` exits 0, and `exit abc`
exits 0. -/
theorem exit_builtin_behavior :
    (∀ home chdirOk forkOk execOk,
      execute_command "exit" ["exit", "7"] home chdirOk forkOk execOk =
        ⟨[Ev.exitEv 7], some 7⟩ ∧
      execute_command "exit" ["exit"] home chdirOk forkOk execOk =
        ⟨[Ev.exitEv 0], some 0⟩ ∧
      execute_command "exit" ["exit", "abc"] home chdirOk forkOk execOk =
        ⟨[Ev.exitEv 0], some 0⟩) ∧
    (∀ argv home chdirOk forkOk execOk,
      execute_command "exit" argv home chdirOk forkOk execOk =
        ⟨[Ev.exitEv (if 1 < argv.length then atoi (argv.getD 1 "") else 0)],
         some (if 1 < argv.length then atoi (argv.getD 1 "") else 0)⟩ ∧
      (execute_command "exit" argv home chdirOk forkOk execOk).events.filter isSpawnEv
        = []) :=
  ⟨fun _ _ _ _ => ⟨rfl, rfl, rfl⟩, fun _ _ _ _ _ => ⟨rfl, rfl⟩⟩

/-- Claim C10: in Input mode the redirect child duplicates the opened file
onto standard input and the node's explicit target fd slot is ignored: the
trace does not depend on `fd` (nor on `fd2`), the opened fd is never dup'd
onto the explicit slot, and on the success path the wiring is
open, dup2-onto-stdin, close. -/
theorem redirect_input_ignores_fd :
    ∀ fd fd' target fd2 fd2' child openOk dupOk,
      redirect_child .input fd target fd2 child openOk dupOk =
        redirect_child .input fd' target fd2' child openOk dupOk ∧
      redirect_child .input fd target fd2 child true (fun _ => true) =
        [Ev.openFile target .rdonly, Ev.dup2 Fd.file Fd.stdin, Ev.closeFd Fd.file,
         Ev.runChild child, Ev.exitEv 0] ∧
      (openOk = true →
        Ev.dup2 Fd.file Fd.stdin ∈ redirect_child .input fd target fd2 child openOk dupOk) ∧
      Ev.dup2 Fd.file (Fd.num fd) ∉ redirect_child .input fd target fd2 child openOk dupOk := by
  intro fd fd' target fd2 fd2' child openOk dupOk
  refine ⟨rfl, rfl, ?_, ?_⟩
  · intro h
    subst h
    cases hd : dupOk 0 <;> simp [redirect_child, hd]
  · cases openOk <;> cases hd : dupOk 0 <;> simp [redirect_child, hd]

/-- Witness for C10: a Redirect Input node carrying explicit target fd 5 has
exactly the same child trace as one carrying the default sentinel -1, and the
opened file is dup'd onto stdin. -/
theorem redirect_input_ignores_fd_witness :
    redirect_child .input 5 "in.txt" 0 (Node.command "cat" ["cat"]) true
        (fun _ => true) =
      redirect_child .input (-1) "in.txt" 7 (Node.command "cat" ["cat"]) true
        (fun _ => true) ∧
    Ev.dup2 Fd.file Fd.stdin ∈
      redirect_child .input 5 "in.txt" 0 (Node.command "cat" ["cat"]) true
        (fun _ => true) := by
  have h := redirect_input_ignores_fd 5 (-1) "in.txt" 0 7
    (Node.command "cat" ["cat"]) true (fun _ => true)
  exact ⟨h.1, h.2.2.1 rfl⟩

/-- Claim C5: in Output and Append mode, on the success path the redirect
child opens the target write-only/create (truncating for Output, append for
Append), dups the opened fd onto the explicit target fd when one was
specified (`fd ≥ 0`) and onto stdout otherwise, dups it additionally onto
stderr exactly when no explicit fd was specified (`fd < 0`), and then closes
the original file fd. -/
theorem redirect_output_append_wiring :
    ∀ fd target fd2 child,
      redirect_child .output fd target fd2 child true (fun _ => true) =
        [Ev.openFile target .wTrunc,
         Ev.dup2 Fd.file (if fd < 0 then Fd.stdout else Fd.num fd)] ++
        (if fd < 0 then [Ev.dup2 Fd.file Fd.stderr] else []) ++
        [Ev.closeFd Fd.file, Ev.runChild child, Ev.exitEv 0] ∧
      redirect_child .append fd target fd2 child true (fun _ => true) =
        [Ev.openFile target .wAppend,
         Ev.dup2 Fd.file (if fd < 0 then Fd.stdout else Fd.num fd)] ++
        (if fd < 0 then [Ev.dup2 Fd.file Fd.stderr] else []) ++
        [Ev.closeFd Fd.file, Ev.runChild child, Ev.exitEv 0] ∧
      (Ev.dup2 Fd.file Fd.stderr ∈
          redirect_child .output fd target fd2 child true (fun _ => true) ↔ fd < 0) ∧
      (Ev.dup2 Fd.file Fd.stderr ∈
          redirect_child .append fd target fd2 child true (fun _ => true) ↔ fd < 0) := by
  intro fd target fd2 child
  by_cases hf : fd < 0 <;>
    refine ⟨?_, ?_, ?_, ?_⟩ <;> simp [redirect_child, hf]

/-- Claim C8: the cd built-in resolves its target as argument 1 when present
and HOME otherwise; with no argument and HOME unset it emits a diagnostic and
leaves the working directory unchanged; a chdir failure is perror'd; cd never
terminates the shell and never forks. -/
theorem cd_builtin_behavior :
    ∀ argv home chdirOk forkOk execOk,
      (2 ≤ argv.length →
        (chdirOk (argv.getD 1 "") = true →
          execute_command "cd" argv home chdirOk forkOk execOk =
            ⟨[Ev.chdirTo (argv.getD 1 "")], none⟩) ∧
        (chdirOk (argv.getD 1 "") = false →
          execute_command "cd" argv home chdirOk forkOk execOk =
            ⟨[Ev.perror "cd"], none⟩)) ∧
      (argv.length < 2 →
        (home = none →
          execute_command "cd" argv home chdirOk forkOk execOk =
            ⟨[Ev.diag "cd: HOME not set"], none⟩) ∧
        (∀ p, home = some p →
          (chdirOk p = true →
            execute_command "cd" argv home chdirOk forkOk execOk =
              ⟨[Ev.chdirTo p], none⟩) ∧
          (chdirOk p = false →
            execute_command "cd" argv home chdirOk forkOk execOk =
              ⟨[Ev.perror "cd"], none⟩))) ∧
      (execute_command "cd" argv home chdirOk forkOk execOk).exited = none ∧
      (execute_command "cd" argv home chdirOk forkOk execOk).events.filter isSpawnEv
        = [] := by
  intro argv home chdirOk forkOk execOk
  refine ⟨?_, ?_, ?_, ?_⟩
  · intro hge
    have h2 : ¬ argv.length < 2 := by omega
    constructor
    · intro hc
      simp only [List.getD_eq_getElem?_getD] at hc
      simp [execute_command, h2, hc]
    · intro hc
      simp only [List.getD_eq_getElem?_getD] at hc
      simp [execute_command, h2, hc]
  · intro hlt
    refine ⟨fun hh => by subst hh; simp [execute_command, hlt], ?_⟩
    intro p hh
    subst hh
    exact ⟨fun hc => by simp [execute_command, hlt, hc],
           fun hc => by simp [execute_command, hlt, hc]⟩
  · by_cases h2 : argv.length < 2
    · cases home with
      | none => simp [execute_command, h2]
      | some p => by_cases hc : chdirOk p <;> simp [execute_command, h2, hc]
    · by_cases hc : chdirOk (argv.getD 1 "")
      · simp only [List.getD_eq_getElem?_getD] at hc
        simp [execute_command, h2, hc]
      · simp only [List.getD_eq_getElem?_getD] at hc
        simp [execute_command, h2, hc]
  · by_cases h2 : argv.length < 2
    · cases home with
      | none => simp [execute_command, h2, isSpawnEv]
      | some p =>
          by_cases hc : chdirOk p <;> simp [execute_command, h2, hc, isSpawnEv]
    · by_cases hc : chdirOk (argv.getD 1 "")
      · simp only [List.getD_eq_getElem?_getD] at hc
        simp [execute_command, h2, hc, isSpawnEv]
      · simp only [List.getD_eq_getElem?_getD] at hc
        simp [execute_command, h2, hc, isSpawnEv]

/-- Witness for C8: `cd /tmp` (chdir succeeding) changes the working
directory to /tmp, and `cd` with HOME unset emits the diagnostic and leaves
the working directory unchanged. -/
theorem cd_builtin_behavior_witness :
    execute_command "cd" ["cd", "/tmp"] none (fun _ => true) true true =
      ⟨[Ev.chdirTo "/tmp"], none⟩ ∧
    execute_command "cd" ["cd"] none (fun _ => true) true true =
      ⟨[Ev.diag "cd: HOME not set"], none⟩ := by
  have h := cd_builtin_behavior ["cd", "/tmp"] none (fun _ => true) true true
  have h' := cd_builtin_behavior ["cd"] none (fun _ => true) true true
  exact ⟨(h.1 (by decide)).1 rfl, (h'.2.1 (by decide)).1 rfl⟩

/-- Claim C9: a Sequence node runs the first sub-tree via the dispatch loop
and then — provided the first did not terminate the calling process via the
exit built-in — unconditionally runs the second: the combined trace is the
concatenation of the two, regardless of any failure in the first. -/
theorem sequence_no_short_circuit :
    ∀ env a b, (run_command env a).exited = none →
      (run_command env (Node.sequence a b)).events =
        (run_command env a).events ++ (run_command env b).events ∧
      (run_command env (Node.sequence a b)).exited =
        (run_command env b).exited := by
  intro env a b h
  simp [run_command, h]

/-- Witness for C9: a first command whose exec fails (diagnostic, child exit
1) does not prevent the second command from running. -/
theorem sequence_no_short_circuit_witness :
    (run_command ⟨none, fun _ => true, true, fun p => p == "echo", fun _ => true, true⟩
        (Node.sequence (Node.command "nosuch" ["nosuch"])
          (Node.command "echo" ["echo", "hi"]))).events =
      [Ev.forkChild, Ev.launch "nosuch" false, Ev.waitChild,
       Ev.forkChild, Ev.launch "echo" true, Ev.waitChild] := by
  have h := sequence_no_short_circuit
    ⟨none, fun _ => true, true, fun p => p == "echo", fun _ => true, true⟩
    (Node.command "nosuch" ["nosuch"]) (Node.command "echo" ["echo", "hi"]) rfl
  rw [h.1]
  rfl

/-- Claim C6: in the redirect wrapper child, any open/dup2 failure
(`redirect_wiring_fails`, the failure condition read off the source's
checks, which also covers the unknown-mode case) causes the trace to end in
`exit(1)` with a diagnostic and without the wrapped sub-tree ever entering
the dispatch loop; when the wiring succeeds the child runs the wrapped
sub-tree and then exits 0 (and never exits 1); the parent (fork having
succeeded) waits for the single child and a waitpid failure is perror'd but
the parent never terminates. -/
theorem redirect_failure_containment :
    ∀ mode fd target fd2 child openOk dupOk waitOk,
      (redirect_wiring_fails mode fd openOk dupOk = true →
        (∃ pre, redirect_child mode fd target fd2 child openOk dupOk
            = pre ++ [Ev.exitEv 1]) ∧
        Ev.runChild child ∉ redirect_child mode fd target fd2 child openOk dupOk ∧
        (∃ s, Ev.perror s ∈ redirect_child mode fd target fd2 child openOk dupOk ∨
              Ev.diag s ∈ redirect_child mode fd target fd2 child openOk dupOk)) ∧
      (redirect_wiring_fails mode fd openOk dupOk = false →
        (∃ pre, redirect_child mode fd target fd2 child openOk dupOk
            = pre ++ [Ev.runChild child, Ev.exitEv 0]) ∧
        Ev.exitEv 1 ∉ redirect_child mode fd target fd2 child openOk dupOk) ∧
      execute_redirect true waitOk =
        Ev.forkChild :: Ev.waitChild ::
          (if waitOk then [] else [Ev.perror "waitpid"]) ∧
      (∀ c, Ev.exitEv c ∉ execute_redirect true waitOk) := by
  intro mode fd target fd2 child openOk dupOk waitOk
  refine ⟨?_, ?_, rfl, ?_⟩
  · cases mode with
    | input =>
        cases openOk with
        | false =>
            intro _
            refine ⟨⟨[Ev.openFile target .rdonly, Ev.perror target], rfl⟩,
              ?_, target, Or.inl ?_⟩ <;> simp [redirect_child]
        | true =>
            cases hd : dupOk 0 with
            | false =>
                intro _
                refine ⟨⟨[Ev.openFile target .rdonly, Ev.dup2 Fd.file Fd.stdin,
                  Ev.perror "dup2"], ?_⟩, ?_, "dup2", Or.inl ?_⟩ <;>
                  simp [redirect_child, hd]
            | true =>
                intro hc
                simp [redirect_wiring_fails, hd] at hc
    | output =>
        cases openOk with
        | false =>
            intro _
            refine ⟨⟨[Ev.openFile target .wTrunc, Ev.perror target], rfl⟩,
              ?_, target, Or.inl ?_⟩ <;> simp [redirect_child]
        | true =>
            cases hd : dupOk 0 with
            | false =>
                intro _
                refine ⟨⟨[Ev.openFile target .wTrunc,
                  Ev.dup2 Fd.file (if fd < 0 then Fd.stdout else Fd.num fd),
                  Ev.perror "dup2"], ?_⟩, ?_, "dup2", Or.inl ?_⟩ <;>
                  simp [redirect_child, hd]
            | true =>
                by_cases hf : fd < 0
                · cases hd1 : dupOk 1 with
                  | false =>
                      intro _
                      refine ⟨⟨[Ev.openFile target .wTrunc,
                        Ev.dup2 Fd.file Fd.stdout, Ev.dup2 Fd.file Fd.stderr,
                        Ev.perror "dup2"], ?_⟩, ?_, "dup2", Or.inl ?_⟩ <;>
                        simp [redirect_child, hd, hd1, hf]
                  | true =>
                      intro hc
                      simp [redirect_wiring_fails, hd, hd1, hf] at hc
                · intro hc
                  simp [redirect_wiring_fails, hd, hf] at hc
    | append =>
        cases openOk with
        | false =>
            intro _
            refine ⟨⟨[Ev.openFile target .wAppend, Ev.perror target], rfl⟩,
              ?_, target, Or.inl ?_⟩ <;> simp [redirect_child]
        | true =>
            cases hd : dupOk 0 with
            | false =>
                intro _
                refine ⟨⟨[Ev.openFile target .wAppend,
                  Ev.dup2 Fd.file (if fd < 0 then Fd.stdout else Fd.num fd),
                  Ev.perror "dup2"], ?_⟩, ?_, "dup2", Or.inl ?_⟩ <;>
                  simp [redirect_child, hd]
            | true =>
                by_cases hf : fd < 0
                · cases hd1 : dupOk 1 with
                  | false =>
                      intro _
                      refine ⟨⟨[Ev.openFile target .wAppend,
                        Ev.dup2 Fd.file Fd.stdout, Ev.dup2 Fd.file Fd.stderr,
                        Ev.perror "dup2"], ?_⟩, ?_, "dup2", Or.inl ?_⟩ <;>
                        simp [redirect_child, hd, hd1, hf]
                  | true =>
                      intro hc
                      simp [redirect_wiring_fails, hd, hd1, hf] at hc
                · intro hc
                  simp [redirect_wiring_fails, hd, hf] at hc
    | dupFd =>
        cases hd : dupOk 0 with
        | false =>
            intro _
            refine ⟨⟨[Ev.dup2 (Fd.num fd2) (Fd.num fd), Ev.perror "dup2"], ?_⟩,
              ?_, "dup2", Or.inl ?_⟩ <;> simp [redirect_child, hd]
        | true =>
            intro hc
            simp [redirect_wiring_fails, hd] at hc
    | unknown k =>
        intro _
        refine ⟨⟨[Ev.diag "Unknown redirect type"], rfl⟩,
          ?_, "Unknown redirect type", Or.inr ?_⟩ <;> simp [redirect_child]
  · cases mode with
    | input =>
        cases openOk with
        | false =>
            intro hc
            simp [redirect_wiring_fails] at hc
        | true =>
            cases hd : dupOk 0 with
            | false =>
                intro hc
                simp [redirect_wiring_fails, hd] at hc
            | true =>
                intro _
                refine ⟨⟨[Ev.openFile target .rdonly, Ev.dup2 Fd.file Fd.stdin,
                  Ev.closeFd Fd.file], ?_⟩, ?_⟩ <;> simp [redirect_child, hd]
    | output =>
        cases openOk with
        | false =>
            intro hc
            simp [redirect_wiring_fails] at hc
        | true =>
            cases hd : dupOk 0 with
            | false =>
                intro hc
                simp [redirect_wiring_fails, hd] at hc
            | true =>
                by_cases hf : fd < 0
                · cases hd1 : dupOk 1 with
                  | false =>
                      intro hc
                      simp [redirect_wiring_fails, hd, hd1, hf] at hc
                  | true =>
                      intro _
                      refine ⟨⟨[Ev.openFile target .wTrunc,
                        Ev.dup2 Fd.file Fd.stdout, Ev.dup2 Fd.file Fd.stderr,
                        Ev.closeFd Fd.file], ?_⟩, ?_⟩ <;>
                        simp [redirect_child, hd, hd1, hf]
                · intro _
                  refine ⟨⟨[Ev.openFile target .wTrunc,
                    Ev.dup2 Fd.file (Fd.num fd), Ev.closeFd Fd.file], ?_⟩, ?_⟩ <;>
                    simp [redirect_child, hd, hf]
    | append =>
        cases openOk with
        | false =>
            intro hc
            simp [redirect_wiring_fails] at hc
        | true =>
            cases hd : dupOk 0 with
            | false =>
                intro hc
                simp [redirect_wiring_fails, hd] at hc
            | true =>
                by_cases hf : fd < 0
                · cases hd1 : dupOk 1 with
                  | false =>
                      intro hc
                      simp [redirect_wiring_fails, hd, hd1, hf] at hc
                  | true =>
                      intro _
                      refine ⟨⟨[Ev.openFile target .wAppend,
                        Ev.dup2 Fd.file Fd.stdout, Ev.dup2 Fd.file Fd.stderr,
                        Ev.closeFd Fd.file], ?_⟩, ?_⟩ <;>
                        simp [redirect_child, hd, hd1, hf]
                · intro _
                  refine ⟨⟨[Ev.openFile target .wAppend,
                    Ev.dup2 Fd.file (Fd.num fd), Ev.closeFd Fd.file], ?_⟩, ?_⟩ <;>
                    simp [redirect_child, hd, hf]
    | dupFd =>
        cases hd : dupOk 0 with
        | false =>
            intro hc
            simp [redirect_wiring_fails, hd] at hc
        | true =>
            intro _
            refine ⟨⟨[Ev.dup2 (Fd.num fd2) (Fd.num fd)], ?_⟩, ?_⟩ <;>
              simp [redirect_child, hd]
    | unknown k =>
        intro hc
        simp [redirect_wiring_fails] at hc
  · intro c
    cases waitOk <;> simp [execute_redirect]

/-- Witness for C6: with the `open` failing, the Input-mode child's trace
ends in exit 1 and never runs the wrapped sub-tree; with every call
succeeding, the Output-mode child's trace ends by dispatching the wrapped
sub-tree and exiting 0. -/
theorem redirect_failure_containment_witness :
    (∃ pre, redirect_child .input (-1) "missing.txt" 0
        (Node.command "cat" ["cat"]) false (fun _ => true)
      = pre ++ [Ev.exitEv 1]) ∧
    Ev.runChild (Node.command "cat" ["cat"]) ∉
      redirect_child .input (-1) "missing.txt" 0
        (Node.command "cat" ["cat"]) false (fun _ => true) ∧
    (∃ pre, redirect_child .output (-1) "out.txt" 0
        (Node.command "cat" ["cat"]) true (fun _ => true)
      = pre ++ [Ev.runChild (Node.command "cat" ["cat"]), Ev.exitEv 0]) := by
  have h1 := redirect_failure_containment .input (-1) "missing.txt" 0
    (Node.command "cat" ["cat"]) false (fun _ => true) true
  have h2 := redirect_failure_containment .output (-1) "out.txt" 0
    (Node.command "cat" ["cat"]) true (fun _ => true) true
  exact ⟨(h1.1 rfl).1, (h1.1 rfl).2.1, (h2.2.1 rfl).1⟩

lemma mem_closeAllPipes (e : Ev) (m : Nat) :
    e ∈ closeAllPipes m ↔
      ∃ j, j < m ∧ (e = Ev.closeFd (Fd.pipeR j) ∨ e = Ev.closeFd (Fd.pipeW j)) := by
  simp [closeAllPipes]

lemma dup2_not_mem_stage_run (s d : Fd) (stage : Node) (eo : Bool) :
    Ev.dup2 s d ∉ stage_run stage eo := by
  cases stage <;> cases eo <;> simp [stage_run]

/-- Claim C3: the child for stage `i` of an `n`-stage pipeline dups the read
end of pipe `i-1` onto stdin iff `i > 0`, dups the write end of pipe `i` onto
stdout iff `i < n-1` (the wiring depends only on the stage position), closes
both ends of all `n-1` pipes before running its stage, and then either execs a
bare Command directly (perror and exit 1 on failure) or re-enters the
dispatch loop and exits 0. -/
theorem pipe_child_wiring :
    ∀ n i stage execOk, 2 ≤ n → i < n →
      (Ev.dup2 (Fd.pipeR (i - 1)) Fd.stdin ∈ pipe_stage_child n i stage execOk
        ↔ 0 < i) ∧
      (Ev.dup2 (Fd.pipeW i) Fd.stdout ∈ pipe_stage_child n i stage execOk
        ↔ i < n - 1) ∧
      (∀ j, j < n - 1 →
        Ev.closeFd (Fd.pipeR j) ∈ pipe_stage_child n i stage execOk ∧
        Ev.closeFd (Fd.pipeW j) ∈ pipe_stage_child n i stage execOk) ∧
      pipe_stage_child n i stage execOk =
        (if 0 < i then [Ev.dup2 (Fd.pipeR (i - 1)) Fd.stdin] else []) ++
        (if i < n - 1 then [Ev.dup2 (Fd.pipeW i) Fd.stdout] else []) ++
        closeAllPipes (n - 1) ++ stage_run stage execOk ∧
      (∀ p args, stage = Node.command p args →
        stage_run stage execOk =
          (if execOk then [Ev.execve p args]
           else [Ev.execve p args, Ev.perror p, Ev.exitEv 1])) ∧
      ((∀ p args, stage ≠ Node.command p args) →
        stage_run stage execOk = [Ev.runChild stage, Ev.exitEv 0]) := by
  intro n i stage execOk hn hi
  refine ⟨?_, ?_, ?_, rfl, ?_, ?_⟩
  · by_cases h0 : 0 < i <;>
      by_cases hl : i < n - 1 <;>
        simp [pipe_stage_child, h0, hl, mem_closeAllPipes, dup2_not_mem_stage_run]
  · by_cases h0 : 0 < i <;>
      by_cases hl : i < n - 1 <;>
        simp [pipe_stage_child, h0, hl, mem_closeAllPipes, dup2_not_mem_stage_run]
  · intro j hj
    constructor <;>
      · simp [pipe_stage_child, mem_closeAllPipes]
        omega
  · intro p args h
    subst h
    rfl
  · intro h
    cases stage with
    | command p args => exact absurd rfl (h p args)
    | sequence a b => rfl
    | pipe parts => rfl
    | redirect c f m t f2 => rfl
    | subshell c => rfl
    | detach c => rfl

/-- Witness for C3: in a 3-stage pipeline, the middle stage's child reads
from pipe 0 and closes the write end of pipe 1. -/
theorem pipe_child_wiring_witness :
    Ev.dup2 (Fd.pipeR 0) Fd.stdin ∈
      pipe_stage_child 3 1 (Node.command "grep" ["grep", "b"]) true ∧
    Ev.closeFd (Fd.pipeW 1) ∈
      pipe_stage_child 3 1 (Node.command "grep" ["grep", "b"]) true := by
  have h := pipe_child_wiring 3 1 (Node.command "grep" ["grep", "b"]) true
    (by omega) (by omega)
  exact ⟨h.1.mpr (by omega), (h.2.2.1 1 (by omega)).2⟩

lemma openPipeFds_append (l1 l2 : List Ev) :
    ∀ acc, openPipeFds acc (l1 ++ l2) = openPipeFds (openPipeFds acc l1) l2 := by
  induction l1 with
  | nil => intro acc; rfl
  | cons e rest ih => intro acc; cases e <;> simp [openPipeFds, ih]

lemma openPipeFds_map_fork (l : List Nat) :
    ∀ acc, openPipeFds acc (l.map Ev.forkStage) = acc := by
  induction l with
  | nil => intro acc; rfl
  | cons x xs ih => intro acc; simp [openPipeFds, ih]

lemma openPipeFds_map_wait (l : List Nat) :
    ∀ acc, openPipeFds acc (l.map Ev.waitStage) = acc := by
  induction l with
  | nil => intro acc; rfl
  | cons x xs ih => intro acc; simp [openPipeFds, ih]

lemma openPipeFds_creates (m : Nat) :
    ∀ acc, openPipeFds acc ((List.range m).map Ev.createPipe) = acc ++ allPipeFds m := by
  induction m with
  | zero => intro acc; simp [allPipeFds, openPipeFds]
  | succ m ih =>
      intro acc
      rw [List.range_succ, List.map_append, openPipeFds_append, ih]
      simp [openPipeFds, allPipeFds, List.range_succ]

lemma closeAllPipes_eq_map (m : Nat) :
    closeAllPipes m = (allPipeFds m).map Ev.closeFd := by
  simp [closeAllPipes, allPipeFds, List.map_flatMap]

lemma openPipeFds_close_list (fds : List Fd) :
    ∀ acc, openPipeFds acc (fds.map Ev.closeFd) =
      acc.filter (fun g => decide (g ∉ fds)) := by
  induction fds with
  | nil =>
      intro acc
      simp [openPipeFds]
  | cons f fds ih =>
      intro acc
      rw [List.map_cons]
      simp only [openPipeFds]
      rw [ih, List.filter_filter]
      apply List.filter_congr
      intro g _
      by_cases h1 : g = f <;> by_cases h2 : g ∈ fds <;> simp [h1, h2]

lemma openPipeFds_closeAll_self (m : Nat) :
    openPipeFds (allPipeFds m) (closeAllPipes m) = [] := by
  rw [closeAllPipes_eq_map, openPipeFds_close_list]
  rw [List.filter_eq_nil_iff]
  intro a ha
  simp [ha]

lemma create_pipes_ok (pipeOk : Nat → Bool) :
    ∀ k i, (∀ j, j < k → pipeOk (i + j) = true) →
      create_pipes pipeOk i k =
        ((List.range k).map (fun j => Ev.createPipe (i + j)), true) := by
  intro k
  induction k with
  | zero => intro i _; rfl
  | succ k ih =>
      intro i h
      have h0 : pipeOk i = true := by simpa using h 0 (by omega)
      have hrec := ih (i + 1) (fun j hj => by
        have := h (j + 1) (by omega)
        rwa [show i + (j + 1) = i + 1 + j by omega] at this)
      simp only [create_pipes, h0, if_true, hrec]
      rw [List.range_succ_eq_map]
      simp only [List.map_cons, List.map_map, Nat.add_zero]
      refine congrArg (fun l => (Ev.createPipe i :: l, true)) ?_
      apply List.map_congr_left
      intro a _
      simp only [Function.comp]
      congr 1
      omega

lemma fork_stages_ok (forkOk : Nat → Bool) (n : Nat) :
    ∀ k i, (∀ j, j < k → forkOk (i + j) = true) →
      fork_stages forkOk n i k =
        ((List.range k).map (fun j => Ev.forkStage (i + j)), true) := by
  intro k
  induction k with
  | zero => intro i _; rfl
  | succ k ih =>
      intro i h
      have h0 : forkOk i = true := by simpa using h 0 (by omega)
      have hrec := ih (i + 1) (fun j hj => by
        have := h (j + 1) (by omega)
        rwa [show i + (j + 1) = i + 1 + j by omega] at this)
      simp only [fork_stages, h0, if_true, hrec]
      rw [List.range_succ_eq_map]
      simp only [List.map_cons, List.map_map, Nat.add_zero]
      refine congrArg (fun l => (Ev.forkStage i :: l, true)) ?_
      apply List.map_congr_left
      intro a _
      simp only [Function.comp]
      congr 1
      omega

/-- Claim C4: on the success path (all pipes created, all forks succeed) the
parent's trace is: create the `n-1` pipes, fork the `n` stages, close both
ends of all pipes, wait for all `n` stages in order, free the arrays; after
it no engine-created pipe fd remains open in the shell process
(`openPipeFds [] trace = []`) and every one of the `n` children is reaped. -/
theorem pipe_parent_closes_and_reaps :
    ∀ n pipeOk forkOk, 2 ≤ n →
      (∀ i, i < n - 1 → pipeOk i = true) →
      (∀ i, i < n → forkOk i = true) →
      execute_pipe n pipeOk forkOk =
        (List.range (n - 1)).map Ev.createPipe ++ (List.range n).map Ev.forkStage ++
        closeAllPipes (n - 1) ++ (List.range n).map Ev.waitStage ++
        [Ev.freeMem, Ev.freeMem] ∧
      openPipeFds [] (execute_pipe n pipeOk forkOk) = [] ∧
      (∀ i, i < n → Ev.waitStage i ∈ execute_pipe n pipeOk forkOk) ∧
      (∀ j, j < n - 1 →
        Ev.closeFd (Fd.pipeR j) ∈ execute_pipe n pipeOk forkOk ∧
        Ev.closeFd (Fd.pipeW j) ∈ execute_pipe n pipeOk forkOk) := by
  intro n pipeOk forkOk hn hp hf
  have hc := create_pipes_ok pipeOk (n - 1) 0 (fun j hj => by simpa using hp j hj)
  have hfk := fork_stages_ok forkOk n n 0 (fun j hj => by simpa using hf j hj)
  have he : execute_pipe n pipeOk forkOk =
      (List.range (n - 1)).map Ev.createPipe ++ (List.range n).map Ev.forkStage ++
      closeAllPipes (n - 1) ++ (List.range n).map Ev.waitStage ++
      [Ev.freeMem, Ev.freeMem] := by
    simp only [execute_pipe, hc, hfk]
    simp [Nat.zero_add]
  refine ⟨he, ?_, ?_, ?_⟩
  · rw [he]
    rw [openPipeFds_append, openPipeFds_append, openPipeFds_append,
        openPipeFds_append]
    rw [openPipeFds_creates, List.nil_append, openPipeFds_map_fork,
        openPipeFds_closeAll_self, openPipeFds_map_wait]
    rfl
  · intro i hi
    rw [he]
    simp [mem_closeAllPipes]
    omega
  · intro j hj
    rw [he]
    constructor <;>
      · simp [mem_closeAllPipes]
        omega

/-- Witness for C4: for a 3-stage pipeline with every system call
succeeding, the parent's trace is exactly the create/fork/close/wait/free
sequence and no pipe fd stays open. -/
theorem pipe_parent_closes_and_reaps_witness :
    execute_pipe 3 (fun _ => true) (fun _ => true) =
      [Ev.createPipe 0, Ev.createPipe 1,
       Ev.forkStage 0, Ev.forkStage 1, Ev.forkStage 2,
       Ev.closeFd (Fd.pipeR 0), Ev.closeFd (Fd.pipeW 0),
       Ev.closeFd (Fd.pipeR 1), Ev.closeFd (Fd.pipeW 1),
       Ev.waitStage 0, Ev.waitStage 1, Ev.waitStage 2,
       Ev.freeMem, Ev.freeMem] ∧
    openPipeFds [] (execute_pipe 3 (fun _ => true) (fun _ => true)) = [] := by
  have h := pipe_parent_closes_and_reaps 3 (fun _ => true) (fun _ => true)
    (by omega) (fun _ _ => rfl) (fun _ _ => rfl)
  exact ⟨rfl, h.2.1⟩

end Vush
